import Mathlib

/-!
Verification of the endpoint-resolution-and-connection-registry core of the
hdfs-native crate (`src/lib.rs`): `HdfsRegistry`, its endpoint resolver
`get_namenode`, and the caching operation `get`.

The registry code in `src/lib.rs` is embedded directly.  Collaborators that
live outside that file are modelled:
* the `url` crate's `Url::parse` / `scheme()` / `host()` / `port()` (an
  external dependency) is modelled for the fragment the registry exercises:
  scheme validation and ASCII lowercasing, `//`-authority with optional
  userinfo, domain host (lowercased, empty host reported as absent), optional
  explicit decimal port bounded by 65535; `port()` reports only explicit
  ports, as it does for non-special schemes such as `hdfs`;
* the native libhdfs3 layer (`hdfsNewBuilder`, `hdfsBuilderSetNameNode`,
  `hdfsBuilderSetNameNodePort`, `hdfsBuilderConnect`) is modelled as a test
  double: an environment `native : Nat → Bool` gives the outcome of the k-th
  `hdfsBuilderConnect` invocation (true = valid handle, false = null), the
  fresh connection produced by the k-th successful invocation is identified
  by `k`, and a counter records how many times connect has been invoked;
* `HdfsErr` and `HdfsFs` (crate modules `err` and `dfs`, not in scope)
  are modelled from the spec.

State (the `Arc<Mutex<HashMap<String, HdfsFs>>>` and the native layer) is
passed explicitly: `get` maps a registry, a connect counter and a path to a
result together with the updated registry and counter.  Because every access
to the shared map in the source happens under the single mutex, a concurrent
execution of `get` calls is equivalent to some serialization, which this
state-passing model captures.
-/

set_option autoImplicit false

namespace HdfsReg

/-- Modelled from the spec: the error taxonomy of the registry core (crate
module `err`, not in scope).  Only the two kinds that originate in or
propagate through this component are needed. -/
inductive HdfsErr where
  | InvalidUrl (path : String)
  | CannotConnectToNameNode (key : String)
deriving DecidableEq, Repr

/-- Modelled from the spec: the Filesystem Handle (crate module `dfs`, not in
scope) — cheaply shareable, carries the canonical endpoint string it was
created for (`url`), and wraps a raw native handle, identified here by the
index of the connect invocation that produced it. -/
structure HdfsFs where
  url : String
  connId : Nat
deriving DecidableEq, Repr

/-- Scheme characters after the first: ALPHA / DIGIT / plus / minus / dot. -/
def isSchemeChar (c : Char) : Bool :=
  c.isAlphanum || c == '+' || c == '-' || c == '.'

/-- A scheme is non-empty, starts with a letter, rest are scheme chars. -/
def validScheme : List Char → Bool
  | [] => false
  | c :: rest => c.isAlpha && rest.all isSchemeChar

/-- Split the input at the first colon, returning the raw scheme and the
remainder; none when no colon is found. -/
def splitSchemeAux (acc : List Char) : List Char → Option (List Char × List Char)
  | [] => none
  | c :: rest => if c = ':' then some (acc.reverse, rest) else splitSchemeAux (c :: acc) rest

/-- Characters allowed inside the authority component (it ends at the first
slash, question mark or hash). -/
def authChar (c : Char) : Bool :=
  c != '/' && c != '?' && c != '#'

/-- Drop a userinfo component: keep only what follows the last at-sign. -/
def stripUserinfo (cs : List Char) : List Char :=
  ((cs.reverse).takeWhile (fun c => c != '@')).reverse

/-- Split host-port at the last colon; none when there is no colon. -/
def rsplitColon (cs : List Char) : List Char × Option (List Char) :=
  match (cs.reverse).span (fun c => c != ':') with
  | (_, []) => (cs, none)
  | (portRev, _ :: hostRev) => (hostRev.reverse, some portRev.reverse)

/-- Decimal value of a digit list. -/
def digitsToNat (ds : List Char) : Nat :=
  ds.foldl (fun n c => n * 10 + (c.toNat - 48)) 0

/-- Port component: absent or empty means no port; otherwise it must be all
digits and at most 65535 (a u16), else the URL is rejected. -/
def parsePort : Option (List Char) → Option (Option Nat)
  | none => some none
  | some [] => some none
  | some (d :: ds) =>
    if (d :: ds).all Char.isDigit then
      if digitsToNat (d :: ds) ≤ 65535 then some (some (digitsToNat (d :: ds))) else none
    else none

/-- Modelled URL record: normalized scheme, optional lowercased host,
optional explicit port. -/
structure Url where
  scheme : String
  host : Option String
  port : Option Nat
deriving DecidableEq, Repr

/-- Host component: an empty host is reported as absent; domain hosts are
lowercased by normalization. -/
def mkHost (cs : List Char) : Option String :=
  if cs = [] then none else some (String.mk (cs.map Char.toLower))

/-- Assemble a URL from a normalized scheme and an authority component. -/
def mkUrl (scheme : String) (auth : List Char) : Option Url :=
  match parsePort (rsplitColon (stripUserinfo auth)).2 with
  | none => none
  | some p => some { scheme := scheme, host := mkHost (rsplitColon (stripUserinfo auth)).1, port := p }

/-- Parse what follows "scheme:": a `//` introduces an authority; anything
else is an opaque path with no host and no port. -/
def Url.parseRest (scheme : String) : List Char → Option Url
  | '/' :: '/' :: rest => mkUrl scheme (rest.takeWhile authChar)
  | _ => some { scheme := scheme, host := none, port := none }

/-- Modelled from the spec: `url::Url::parse` restricted to the fragment the
registry exercises.  Normalization lowercases the scheme (ASCII). -/
def Url.parse (s : String) : Option Url :=
  match splitSchemeAux [] s.data with
  | none => none
  | some (sch, rest) =>
    if validScheme sch then Url.parseRest (String.mk (sch.map Char.toLower)) rest
    else none

/-- The local-filesystem scheme sentinel (`LOCAL_FS_SCHEME` in the source). -/
def LOCAL_FS_SCHEME : String := "file"

/-- Host/port pair of a remote namenode (struct `HostPort`). -/
structure HostPort where
  host : String
  port : Nat
deriving DecidableEq, Repr

/-- Resolved endpoint (enum `NNScheme`). -/
inductive NNScheme where
  | Local
  | Remote (hp : HostPort)
deriving DecidableEq, Repr

/-- Canonical string form (impl `ToString for NNScheme`): the cache key. -/
def NNScheme.toString : NNScheme → String
  | .Local => "file:///"
  | .Remote hp => hp.host ++ ":" ++ Nat.repr hp.port

/-- The registry (struct `HdfsRegistry`): its `Arc<Mutex<HashMap<..>>>` is
modelled as an insertion-ordered association list with unique keys. -/
structure HdfsRegistry where
  all_fs : List (String × HdfsFs)
deriving DecidableEq, Repr

/-- HashMap lookup on the association-list model. -/
def mapLookup (k : String) : List (String × HdfsFs) → Option HdfsFs
  | [] => none
  | (k', v) :: rest => if k' = k then some v else mapLookup k rest

/-- HashMap insert of a key known to be absent. -/
def mapInsert (k : String) (v : HdfsFs) (m : List (String × HdfsFs)) : List (String × HdfsFs) :=
  m ++ [(k, v)]

/-- `HdfsRegistry::new`: fresh empty map. -/
def HdfsRegistry.new : HdfsRegistry := ⟨[]⟩

/-- `HdfsRegistry::new_from`: registry backed by a caller-supplied map. -/
def HdfsRegistry.new_from (fs : List (String × HdfsFs)) : HdfsRegistry := ⟨fs⟩

/-- `impl Default for HdfsRegistry`: delegates to `new`. -/
def HdfsRegistry.default : HdfsRegistry := HdfsRegistry.new

/-- `HdfsRegistry::get_namenode`: parse the path; `file` scheme resolves to
`Local`; otherwise both a host and an explicit port are required. -/
def HdfsRegistry.get_namenode (path : String) : Except HdfsErr NNScheme :=
  match Url.parse path with
  | some url =>
    if url.scheme = LOCAL_FS_SCHEME then .ok .Local
    else
      match url.host, url.port with
      | some h, some p => .ok (.Remote ⟨url.scheme ++ "://" ++ h, p⟩)
      | _, _ => .error (.InvalidUrl path)
  | none => .error (.InvalidUrl path)

/-- `HdfsRegistry::get`.  Faithful to the source, including evaluation order:
the source computes `map.entry(key).or_insert(BLOCK)`, and in Rust the
argument of `or_insert` is evaluated eagerly, so BLOCK — which configures a
builder, invokes `hdfsBuilderConnect`, and early-returns
`CannotConnectToNameNode` on a null handle — runs on every call that reaches
it, cache hit or miss.  `native k` is the outcome of the k-th connect
invocation; `connects` counts invocations so far. -/
def HdfsRegistry.get (native : Nat → Bool) (self : HdfsRegistry) (connects : Nat)
    (path : String) : Except HdfsErr HdfsFs × HdfsRegistry × Nat :=
  match HdfsRegistry.get_namenode path with
  | .error e => (.error e, self, connects)
  | .ok host_port =>
    if native connects then
      match mapLookup host_port.toString self.all_fs with
      | some fs => (.ok fs, self, connects + 1)
      | none =>
        (.ok { url := host_port.toString, connId := connects },
         ⟨mapInsert host_port.toString { url := host_port.toString, connId := connects } self.all_fs⟩,
         connects + 1)
    else (.error (.CannotConnectToNameNode host_port.toString), self, connects + 1)

/-! Test fixtures: native-layer doubles and concrete inputs used in closed
theorems and witnesses. -/

/-- Native double on which every connect attempt returns a valid handle. -/
def alwaysOk : Nat → Bool := fun _ => true

/-- Native double on which every connect attempt returns a null handle. -/
def neverOk : Nat → Bool := fun _ => false

/-- Native double on which only the first connect attempt succeeds. -/
def failAfterFirst : Nat → Bool := fun k => k == 0

/-- The path of the crate's own integration test. -/
def testPath : String := "hdfs://localhost:9000/users/test"

/-- A different path resolving to the same canonical endpoint key. -/
def otherPath : String := "hdfs://localhost:9000/other"

/-- A path for a second, distinct endpoint. -/
def nodePath : String := "hdfs://node1:8020/a"

/-- First call of `get` on a fresh registry. -/
def run1 : Except HdfsErr HdfsFs × HdfsRegistry × Nat :=
  HdfsRegistry.get alwaysOk HdfsRegistry.new 0 testPath

/-- Second call of `get` on the state left by `run1`. -/
def run2 : Except HdfsErr HdfsFs × HdfsRegistry × Nat :=
  HdfsRegistry.get alwaysOk run1.2.1 run1.2.2 testPath

/-- A handle as it would sit in the cache for the test endpoint. -/
def cachedFs : HdfsFs := { url := "hdfs://localhost:9000", connId := 0 }

/-- A registry whose map already holds the test endpoint's key. -/
def regWithEntry : HdfsRegistry := ⟨[("hdfs://localhost:9000", cachedFs)]⟩

/-- Sequential execution of `k` calls of `get` on the same path, threading
registry and connect counter; returns the final registry, the final counter
and the list of results.  Because the source holds one mutex across the whole
read-check-insert-connect sequence, any concurrent execution of `get` calls
is equivalent to such a serialization. -/
def getSeq (native : Nat → Bool) : Nat → HdfsRegistry → Nat → String →
    HdfsRegistry × Nat × List (Except HdfsErr HdfsFs)
  | 0, reg, n, _ => (reg, n, [])
  | k + 1, reg, n, path =>
    let r := HdfsRegistry.get native reg n path
    let rest := getSeq native k r.2.1 r.2.2 path
    (rest.1, rest.2.1, r.1 :: rest.2.2)

/-- The exact condition under which resolution rejects a path, written from
the spec's wording: the string fails to parse as a URL, or the parsed scheme
is not "file" and the URL lacks a non-empty host or an explicit port. -/
def badResolve (path : String) : Prop :=
  Url.parse path = none ∨
    ∃ u, Url.parse path = some u ∧ u.scheme ≠ "file" ∧ (u.host = none ∨ u.port = none)

/-! Helper lemmas about the URL parser model. -/

/-- A port accepted by the parser fits in a u16. -/
theorem parsePort_le (x : Option (List Char)) (p : Nat)
    (h : parsePort x = some (some p)) : p ≤ 65535 := by
  match x with
  | none => simp [parsePort] at h
  | some [] => simp [parsePort] at h
  | some (d :: ds) =>
    simp only [parsePort] at h
    split at h
    · split at h
      · rename_i hle
        simp only [Option.some.injEq] at h
        omega
      · simp at h
    · simp at h

/-- The scheme stored by `mkUrl` is the one it was given. -/
theorem mkUrl_scheme (sc : String) (auth : List Char) (u : Url)
    (h : mkUrl sc auth = some u) : u.scheme = sc := by
  unfold mkUrl at h
  split at h
  · simp at h
  · simp only [Option.some.injEq] at h
    rw [← h]

/-- The scheme stored by `parseRest` is the one it was given. -/
theorem parseRest_scheme (sc : String) (rest : List Char) (u : Url)
    (h : Url.parseRest sc rest = some u) : u.scheme = sc := by
  unfold Url.parseRest at h
  split at h
  · exact mkUrl_scheme _ _ _ h
  · simp only [Option.some.injEq] at h
    rw [← h]

/-- Unfolding `Url.parse` past a known scheme split. -/
theorem parse_eq_of_split (s : String) (sch rest : List Char)
    (hsplit : splitSchemeAux [] s.data = some (sch, rest)) :
    Url.parse s =
      if validScheme sch then Url.parseRest (String.mk (sch.map Char.toLower)) rest
      else none := by
  unfold Url.parse
  rw [hsplit]

/-- Unfolding `Url.parse` when no colon is found. -/
theorem parse_none_of_split_none (s : String)
    (hsplit : splitSchemeAux [] s.data = none) : Url.parse s = none := by
  unfold Url.parse
  rw [hsplit]

/-- Normalization: the scheme of a parsed URL is the ASCII-lowercased raw
scheme of the input. -/
theorem parse_scheme_lower (s : String) (sch rest : List Char) (u : Url)
    (hsplit : splitSchemeAux [] s.data = some (sch, rest))
    (hu : Url.parse s = some u) : u.scheme = String.mk (sch.map Char.toLower) := by
  rw [parse_eq_of_split s sch rest hsplit] at hu
  split at hu
  · exact parseRest_scheme _ _ _ hu
  · simp at hu

/-- A port stored by `mkUrl` fits in a u16. -/
theorem mkUrl_port_le (sc : String) (auth : List Char) (u : Url) (p : Nat)
    (h : mkUrl sc auth = some u) (hp : u.port = some p) : p ≤ 65535 := by
  unfold mkUrl at h
  split at h
  · simp at h
  · rename_i q hq
    simp only [Option.some.injEq] at h
    rw [← h] at hp
    dsimp only at hp
    rw [hp] at hq
    exact parsePort_le _ _ hq

/-- A port stored by `parseRest` fits in a u16. -/
theorem parseRest_port_le (sc : String) (rest : List Char) (u : Url) (p : Nat)
    (h : Url.parseRest sc rest = some u) (hp : u.port = some p) : p ≤ 65535 := by
  unfold Url.parseRest at h
  split at h
  · exact mkUrl_port_le _ _ _ _ h hp
  · simp only [Option.some.injEq] at h
    rw [← h] at hp
    simp at hp

/-- An explicit port of any parsed URL fits in a u16. -/
theorem parse_port_le (s : String) (u : Url) (p : Nat)
    (hu : Url.parse s = some u) (hp : u.port = some p) : p ≤ 65535 := by
  cases hsplit : splitSchemeAux [] s.data with
  | none =>
    rw [parse_none_of_split_none s hsplit] at hu
    exact absurd hu (by simp)
  | some pr =>
    rw [parse_eq_of_split s pr.1 pr.2 (by rw [hsplit])] at hu
    split at hu
    · exact parseRest_port_le _ _ _ _ hu hp
    · exact absurd hu (by simp)

/-! Claim theorems. -/

/-- C1 (code bug).  Two sequential `get` calls on a succeeding path do return
handles carrying the same cache key, and both share the first connection;
but the native connect step is invoked on BOTH calls (counter 2, not 1):
the argument of `or_insert` is evaluated eagerly in Rust, so the second call
builds and connects again even though the key is already cached, leaking the
second connection.  The claim's "connect invoked exactly once" fails. -/
theorem get_twice_connects_twice :
    run1.1 = .ok { url := "hdfs://localhost:9000", connId := 0 } ∧
    run2.1 = .ok { url := "hdfs://localhost:9000", connId := 0 } ∧
    run1.2.2 = 1 ∧ run2.2.2 = 2 :=
  ⟨rfl, rfl, rfl, rfl⟩

/-- C2 (code bug).  On a cache hit `get` does return the existing cached
handle and leaves the map unchanged, but it is not side-effect free: the
eagerly evaluated `or_insert` argument invokes the native builder and connect
step (counter 1 → 2), and if that redundant connect returns a null handle the
call even fails with `CannotConnectToNameNode` despite the cached entry. -/
theorem get_hit_invokes_connect :
    (HdfsRegistry.get alwaysOk regWithEntry 1 testPath).1 = .ok cachedFs ∧
    (HdfsRegistry.get alwaysOk regWithEntry 1 testPath).2.1 = regWithEntry ∧
    (HdfsRegistry.get alwaysOk regWithEntry 1 testPath).2.2 = 2 ∧
    (HdfsRegistry.get neverOk regWithEntry 1 testPath).1 =
      .error (.CannotConnectToNameNode "hdfs://localhost:9000") :=
  ⟨rfl, rfl, rfl, rfl⟩

/-- C3.  Whenever resolution succeeds and the native connect step returns a
null handle, `get` fails with `CannotConnectToNameNode` carrying the
canonical endpoint key, the map is left unchanged (nothing inserted), and the
connect counter records the failed attempt — so a later `get` on the same
path performs the connect again. -/
theorem get_connect_null_fails_map_unchanged (native : Nat → Bool)
    (reg : HdfsRegistry) (n : Nat) (path : String) (hp : NNScheme)
    (hres : HdfsRegistry.get_namenode path = .ok hp) (hfail : native n = false) :
    (HdfsRegistry.get native reg n path).1 =
      .error (.CannotConnectToNameNode hp.toString) ∧
    (HdfsRegistry.get native reg n path).2.1 = reg ∧
    (HdfsRegistry.get native reg n path).2.2 = n + 1 := by
  simp [HdfsRegistry.get, hres, hfail]

/-- C3 witness: a fresh registry, the test path, and a native double whose
connect returns null. -/
theorem get_connect_null_witness :
    (HdfsRegistry.get neverOk HdfsRegistry.new 0 testPath).1 =
      .error (.CannotConnectToNameNode
        (NNScheme.Remote ⟨"hdfs://localhost", 9000⟩).toString) ∧
    (HdfsRegistry.get neverOk HdfsRegistry.new 0 testPath).2.1 = HdfsRegistry.new ∧
    (HdfsRegistry.get neverOk HdfsRegistry.new 0 testPath).2.2 = 0 + 1 :=
  get_connect_null_fails_map_unchanged neverOk HdfsRegistry.new 0 testPath
    (.Remote ⟨"hdfs://localhost", 9000⟩) rfl rfl

/-- C9.  `Default::default` delegates to `new`, and `new` produces a registry
whose connection map is empty; in this value-semantics model every such
registry is an independent empty state. -/
theorem default_eq_new :
    HdfsRegistry.default = HdfsRegistry.new ∧ HdfsRegistry.new.all_fs = [] :=
  ⟨rfl, rfl⟩

/-- C4.  Resolution fails with `InvalidUrl(path)` exactly when the input
fails to parse as a URL, or the parsed scheme is not "file" and the URL
lacks a non-empty host or an explicit port; and `get` propagates any
resolution error unchanged, leaving the map and the connect counter (hence
the native layer) untouched. -/
theorem get_namenode_invalid_iff (path : String) (native : Nat → Bool)
    (reg : HdfsRegistry) (n : Nat) :
    (HdfsRegistry.get_namenode path = .error (.InvalidUrl path) ↔ badResolve path) ∧
    (∀ e, HdfsRegistry.get_namenode path = .error e →
      HdfsRegistry.get native reg n path = (.error e, reg, n)) := by
  constructor
  · unfold badResolve
    cases h : Url.parse path with
    | none => simp [HdfsRegistry.get_namenode, h]
    | some u =>
      simp only [HdfsRegistry.get_namenode, h, LOCAL_FS_SCHEME]
      by_cases hs : u.scheme = "file"
      · simp [hs]
      · simp only [hs, if_neg, ite_false]
        cases hh : u.host with
        | none => simp [hs, hh]
        | some hst =>
          cases hp : u.port with
          | none => simp [hs, hh, hp]
          | some prt => simp [hs, hh, hp]
  · intro e he
    simp [HdfsRegistry.get, he]

/-- C4 witness: a string with no colon fails to parse; `get` returns the
very same `InvalidUrl` error and changes nothing. -/
theorem get_invalid_url_witness :
    HdfsRegistry.get alwaysOk HdfsRegistry.new 0 "not a url" =
      (.error (.InvalidUrl "not a url"), HdfsRegistry.new, 0) :=
  (get_namenode_invalid_iff "not a url" alwaysOk HdfsRegistry.new 0).2 _ rfl

/-- C5.  A URL with a non-"file" scheme carrying a host and an explicit port
resolves to a `Remote` endpoint whose host field retains the scheme prefix,
whose port is the parsed port (a u16), whose canonical key is
"{scheme}://{host}:{port}", and `get` on a fresh registry returns a handle
whose `url` field is that key. -/
theorem get_namenode_remote (path : String) (u : Url) (h : String) (p : Nat) (n : Nat)
    (hu : Url.parse path = some u) (hs : u.scheme ≠ "file")
    (hh : u.host = some h) (hp : u.port = some p) :
    HdfsRegistry.get_namenode path = .ok (.Remote ⟨u.scheme ++ "://" ++ h, p⟩) ∧
    (NNScheme.Remote ⟨u.scheme ++ "://" ++ h, p⟩).toString =
      u.scheme ++ "://" ++ h ++ ":" ++ Nat.repr p ∧
    p ≤ 65535 ∧
    (HdfsRegistry.get alwaysOk HdfsRegistry.new n path).1 =
      .ok { url := u.scheme ++ "://" ++ h ++ ":" ++ Nat.repr p, connId := n } := by
  have hres : HdfsRegistry.get_namenode path = .ok (.Remote ⟨u.scheme ++ "://" ++ h, p⟩) := by
    simp [HdfsRegistry.get_namenode, hu, LOCAL_FS_SCHEME, hs, hh, hp]
  refine ⟨hres, rfl, parse_port_le path u p hu hp, ?_⟩
  simp [HdfsRegistry.get, hres, alwaysOk, HdfsRegistry.new, mapLookup, NNScheme.toString]

/-- C5 witness: the end-to-end example of the spec,
"hdfs://localhost:9000/users/test". -/
theorem get_namenode_remote_witness :
    HdfsRegistry.get_namenode testPath = .ok (.Remote ⟨"hdfs://localhost", 9000⟩) ∧
    (NNScheme.Remote ⟨"hdfs://localhost", 9000⟩).toString = "hdfs://localhost:9000" ∧
    (9000 : Nat) ≤ 65535 ∧
    (HdfsRegistry.get alwaysOk HdfsRegistry.new 0 testPath).1 =
      .ok { url := "hdfs://localhost:9000", connId := 0 } :=
  get_namenode_remote testPath ⟨"hdfs", some "localhost", some 9000⟩ "localhost" 9000 0
    rfl (by decide) rfl rfl

/-- C6.  Every path whose parsed scheme is "file" resolves to the `Local`
endpoint regardless of any other URL component, and the cache key of `Local`
is the one fixed sentinel string "file:///" — so all file-scheme paths hit
the same map slot. -/
theorem get_namenode_local (path : String) (u : Url)
    (hu : Url.parse path = some u) (hs : u.scheme = "file") :
    HdfsRegistry.get_namenode path = .ok NNScheme.Local ∧
    NNScheme.Local.toString = "file:///" := by
  refine ⟨?_, rfl⟩
  simp [HdfsRegistry.get_namenode, hu, hs, LOCAL_FS_SCHEME]

/-- C6 witness: the spec's example "file:///tmp/x". -/
theorem get_namenode_local_witness :
    HdfsRegistry.get_namenode "file:///tmp/x" = .ok NNScheme.Local ∧
    NNScheme.Local.toString = "file:///" :=
  get_namenode_local "file:///tmp/x" ⟨"file", none, none⟩ rfl rfl

/-- C7 (code bug).  Two registries built by `new_from` over one shared map do
share the cache: after the first registry's `get` caches connection 0 under
"hdfs://localhost:9000", the second registry's `get` on a different path with
the same key returns that very handle — but only because its redundant eager
connect happens to succeed; with a native layer that fails the second connect
invocation, the second registry's `get` returns `CannotConnectToNameNode`
instead of the cached handle the claim promises. -/
theorem new_from_shares_cache_but_reconnects :
    (HdfsRegistry.get alwaysOk (HdfsRegistry.new_from []) 0 testPath).1 =
      .ok { url := "hdfs://localhost:9000", connId := 0 } ∧
    (HdfsRegistry.get alwaysOk
      (HdfsRegistry.new_from
        (HdfsRegistry.get alwaysOk (HdfsRegistry.new_from []) 0 testPath).2.1.all_fs)
      1 otherPath).1 = .ok { url := "hdfs://localhost:9000", connId := 0 } ∧
    (HdfsRegistry.get failAfterFirst
      (HdfsRegistry.new_from
        (HdfsRegistry.get failAfterFirst (HdfsRegistry.new_from []) 0 testPath).2.1.all_fs)
      1 otherPath).1 = .error (.CannotConnectToNameNode "hdfs://localhost:9000") :=
  ⟨rfl, rfl, rfl⟩

/-- C8 (code bug).  The single mutex makes N concurrent first-time `get`
calls equivalent to N sequential ones; running three of them on a fresh
endpoint shows three native connect invocations (the claim demands exactly
one), even though all three returned handles do share connection 0. -/
theorem serialized_gets_connect_each_time :
    (getSeq alwaysOk 3 HdfsRegistry.new 0 nodePath).2.1 = 3 ∧
    (getSeq alwaysOk 3 HdfsRegistry.new 0 nodePath).2.2 =
      [.ok { url := "hdfs://node1:8020", connId := 0 },
       .ok { url := "hdfs://node1:8020", connId := 0 },
       .ok { url := "hdfs://node1:8020", connId := 0 }] :=
  ⟨rfl, rfl⟩

/-- C10.  Scheme comparison happens after normalization, which ASCII-
lowercases the scheme: any input whose raw scheme lowercases to "file"
resolves to `Local` with the same sentinel key. -/
theorem scheme_case_insensitive (path : String) (sch rest : List Char) (u : Url)
    (hsplit : splitSchemeAux [] path.data = some (sch, rest))
    (hlower : sch.map Char.toLower = "file".data)
    (hu : Url.parse path = some u) :
    HdfsRegistry.get_namenode path = .ok NNScheme.Local ∧
    NNScheme.toString NNScheme.Local = "file:///" := by
  have hsch : u.scheme = "file" := by
    have h2 := parse_scheme_lower path sch rest u hsplit hu
    rw [h2, hlower]
  refine ⟨?_, rfl⟩
  simp [HdfsRegistry.get_namenode, hu, hsch, LOCAL_FS_SCHEME]

/-- C10 witness: "FILE:///tmp/x" resolves to `Local` with the sentinel key,
exactly like "file:///tmp/x". -/
theorem scheme_case_insensitive_witness :
    HdfsRegistry.get_namenode "FILE:///tmp/x" = .ok NNScheme.Local ∧
    NNScheme.toString NNScheme.Local = "file:///" :=
  scheme_case_insensitive "FILE:///tmp/x" "FILE".data "///tmp/x".data
    ⟨"file", none, none⟩ rfl rfl rfl

end HdfsReg
